import Mathlib

/-!
Verification development for the milvus2 retriever component (eino-ext).

The Go sources under `components/retriever/milvus2` are shallowly embedded:
pure request-building and result-conversion functions become Lean functions,
the external engine / embedding providers become explicit parameters, and
machine floats (which only flow through comparisons and independent
element-wise conversions here) are modelled as rationals, with the
float64→float32 narrowing kept as an uninterpreted conversion parameter.
-/

namespace Milvus2

/-- A dynamically-typed Go value (`any`) as it appears in result columns and
metadata maps.  `bytes` carries the outcome of the external JSON parse of a
byte blob (`none` = the blob does not parse as a string-keyed map), since
JSON decoding itself is an external collaborator. -/
inductive AnyVal where
  | str (s : String)
  | num (x : ℚ)
  | intV (n : Int)
  | boolV (b : Bool)
  | bytes (parsed : Option (List (String × AnyVal)))
  | null

/-- Overwrite-or-append insertion into a string-keyed association list,
modelling assignment `m[k] = v` on a Go map. -/
def mapSet {α : Type} (m : List (String × α)) (k : String) (v : α) : List (String × α) :=
  if (m.find? (fun p => p.1 == k)).isSome then
    m.map (fun p => if p.1 == k then (k, v) else p)
  else
    m ++ [(k, v)]

/-- Lookup in a string-keyed association list, modelling `m[k]`. -/
def mapGet {α : Type} (m : List (String × α)) (k : String) : Option α :=
  (m.find? (fun p => p.1 == k)).map Prod.snd

/-- `schema.Document`: id, content, metadata map and the document score
attribute set via `WithScore` (modelled as a separate field). -/
structure Doc where
  id : String
  content : String
  metaData : List (String × AnyVal)
  score : Option ℚ

/-- `doc.MetaData[k]`. -/
def Doc.metaLookup (d : Doc) (k : String) : Option AnyVal :=
  mapGet d.metaData k

/-- The per-document test of `applyScoreThreshold`:
`score, ok := doc.MetaData["score"].(float64); ok && score >= *threshold`. -/
def scoreOK (t : ℚ) (d : Doc) : Bool :=
  match d.metaLookup "score" with
  | some (.num s) => decide (t ≤ s)
  | _ => false

/-- Whether a document carries a numeric (float64) `"score"` metadata
entry — the shape the `.(float64)` assertion of `applyScoreThreshold`
accepts; entries of any other dynamic type are ignored by the filter. -/
def hasNumericScore (d : Doc) : Bool :=
  match d.metaLookup "score" with
  | some (.num _) => true
  | _ => false

/-- `Retriever.applyScoreThreshold`: with no threshold, return the documents
unchanged; otherwise keep, in order, the documents whose `"score"` metadata
entry is a float64 at or above the threshold. -/
def applyScoreThreshold (docs : List Doc) (threshold : Option ℚ) : List Doc :=
  match threshold with
  | none => docs
  | some t => docs.foldl (fun acc d => if scoreOK t d then acc ++ [d] else acc) []

/-- A dense embedding provider (`embedding.Embedder.EmbedStrings`). -/
structure Embedder where
  embedStrings : List String → Except String (List (List ℚ))

/-- A sparse embedding provider (`SparseEmbedder.EmbedStrings`); a sparse
vector is an index→weight map, modelled as an association list. -/
structure SparseEmbedderT where
  embedStrings : List String → Except String (List (List (Int × ℚ)))

/-- `retriever.Options` of the eino framework: the merged common call
options (only the fields this component reads). -/
structure ROptions where
  index : Option String := none
  topK : Option Int := none
  scoreThreshold : Option ℚ := none
  embedding : Option Embedder := none

/-- Grouping call option (`WithGrouping`): group-by field, group size and
strictness flag. -/
structure Grouping where
  groupByField : String
  groupSize : Int
  strictGroupSize : Bool

/-- `ImplOptions`: the implementation-specific call options of this
component (filter expression and grouping). -/
structure ImplOptions where
  filter : String := ""
  grouping : Option Grouping := none

/-- A per-call retriever option: either a common-option setter or an
implementation-specific setter (eino applies each kind to its own options
value). -/
inductive ROption where
  | common (f : ROptions → ROptions)
  | implSpecific (f : ImplOptions → ImplOptions)

/-- `retriever.GetCommonOptions base opts...`: apply every common-option
setter to the base options in order. -/
def getCommonOptions (base : ROptions) (opts : List ROption) : ROptions :=
  opts.foldl (fun o opt => match opt with
    | .common f => f o
    | .implSpecific _ => o) base

/-- `retriever.GetImplSpecificOptions base opts...`: apply every
implementation-specific setter to the base options in order. -/
def getImplSpecificOptions (base : ImplOptions) (opts : List ROption) : ImplOptions :=
  opts.foldl (fun o opt => match opt with
    | .common _ => o
    | .implSpecific f => f o) base

/-- `retriever.WithTopK`. -/
def withTopK (k : Int) : ROption :=
  .common (fun o => { o with topK := some k })

/-- Modelled from the spec: `milvus2.WithFilter`, the per-call explicit
filter-expression override (its defining file is not in the provided
sources; the spec lists it among the per-invocation overrides). -/
def withFilter (f : String) : ROption :=
  .implSpecific (fun o => { o with filter := f })

/-- Modelled from the spec: `milvus2.WithGrouping`, the per-call result
grouping override (group-by field, group size, strictness flag). -/
def withGrouping (field : String) (size : Int) (strict : Bool) : ROption :=
  .implSpecific (fun o => { o with grouping := some ⟨field, size, strict⟩ })

/-- Modelled from the spec: the reserved primary-key column name used by the
default schema ("id"; the constants file is not among the provided sources,
but the default converter's own switch uses the literal `"id"` and the repo
docs list the default columns as id / content / vector / metadata). -/
def defaultIDField : String := "id"

/-- Modelled from the spec: the reserved content column name. -/
def defaultContentField : String := "content"

/-- Modelled from the spec: the reserved metadata column name. -/
def defaultMetadataField : String := "metadata"

/-- A named result column; `values` are the per-row values. -/
structure Column where
  name : String
  values : List AnyVal

/-- `milvusclient.ResultSet`: a row count, optional per-row scores and the
named columns.  `resultCount` is a Go `int`; the row loops below run over
`resultCount.toNat` exactly as `for i := 0; i < ResultCount; i++` does. -/
structure ResultSet where
  resultCount : Int
  scores : List ℚ
  fields : List Column

/-- `ResultSet.GetColumn`: find a column by name (`nil` if absent). -/
def ResultSet.getColumn (rs : ResultSet) (name : String) : Option Column :=
  rs.fields.find? (fun c => c.name == name)

/-- `column.Get idx`: the row value, erring (here: `none`) out of range. -/
def Column.get (c : Column) (i : Nat) : Option AnyVal :=
  c.values[i]?

/-- Model of the SDK's `column.GetAsString`: succeeds on string-typed
values, errs otherwise. -/
def Column.getAsString (c : Column) (i : Nat) : Option String :=
  match c.values[i]? with
  | some (.str s) => some s
  | _ => none

/-- Model of Go's `fmt.Sprintf("%v", v)` on a dynamic value.  The exact
rendering of non-string values is external formatting; only its totality
matters here. -/
def goSprintf : AnyVal → String
  | .str s => s
  | .num x => toString x
  | .intV n => toString n
  | .boolV b => toString b
  | .bytes _ => "<bytes>"
  | .null => "<nil>"

/-- The `getField` closure of `queryResultSetToDocuments`: resolve the
column, then `col.Get(idx)`; `ok` is false when either step fails. -/
def getFieldQ (rs : ResultSet) (name : String) (i : Nat) : Option AnyVal :=
  match rs.getColumn name with
  | none => none
  | some col => col.get i

/-- Merge a parsed JSON map into a metadata map (`for k, v := range m`). -/
def mergeMeta (meta : List (String × AnyVal)) (m : List (String × AnyVal)) :
    List (String × AnyVal) :=
  m.foldl (fun acc p => mapSet acc p.1 p.2) meta

/-- One iteration of the row loop of `Retriever.queryResultSetToDocuments`:
`none` when the primary-key field is absent (the `continue` case). -/
def queryRowToDoc (rs : ResultSet) (i : Nat) : Option Doc :=
  match getFieldQ rs defaultIDField i with
  | none => none
  | some idVal =>
    let idStr := goSprintf idVal
    let contentStr :=
      match getFieldQ rs defaultContentField i with
      | some v => match v with
        | .null => ""
        | _ => goSprintf v
      | none => ""
    let meta :=
      match getFieldQ rs defaultMetadataField i with
      | some (.bytes (some m)) => mergeMeta [] m
      | _ => []
    some { id := idStr, content := contentStr, metaData := meta, score := none }

/-- `Retriever.queryResultSetToDocuments`: convert a Query result set,
skipping rows whose primary-key field is absent; never errors. -/
def queryResultSetToDocuments (rs : ResultSet) : Except String (List Doc) :=
  .ok ((List.range rs.resultCount.toNat).filterMap (queryRowToDoc rs))

/-- The field-switch body of `defaultDocumentConverter` for one column of
one row (a `field.Get` failure is the `continue` case). -/
def defaultConvertField (i : Nat) (doc : Doc) (field : Column) : Doc :=
  match field.get i with
  | none => doc
  | some val =>
    if field.name == "id" then
      match val with
      | .str s => { doc with id := s }
      | _ =>
        match field.getAsString i with
        | some s => { doc with id := s }
        | none => doc
    else if field.name == defaultContentField then
      match val with
      | .str s => { doc with content := s }
      | _ =>
        match field.getAsString i with
        | some s => { doc with content := s }
        | none => doc
    else if field.name == defaultMetadataField then
      match val with
      | .bytes (some m) => { doc with metaData := mergeMeta doc.metaData m }
      | _ => doc
    else
      { doc with metaData := mapSet doc.metaData field.name val }

/-- One row of `defaultDocumentConverter`: start from an empty document,
attach the row score (as the `"score"` metadata entry and as the document
score attribute) when present, then fold the field switch over all
columns. -/
def defaultConvertRow (rs : ResultSet) (i : Nat) : Doc :=
  let doc : Doc := { id := "", content := "", metaData := [], score := none }
  let doc :=
    match rs.scores[i]? with
    | some s => { doc with metaData := mapSet doc.metaData "score" (.num s), score := some s }
    | none => doc
  rs.fields.foldl (defaultConvertField i) doc

/-- `defaultDocumentConverter`: one document per result row (no row is ever
skipped); never errors. -/
def defaultDocumentConverterFn (rs : ResultSet) : Except String (List Doc) :=
  .ok ((List.range rs.resultCount.toNat).map (defaultConvertRow rs))

/-- `Retriever.embedQuery`, parameterised by the float64→float32 narrowing
`conv` (kept uninterpreted: IEEE semantics are external; the code applies it
independently to each element of the single returned vector). -/
def embedQuery (conv : ℚ → ℚ) (emb : Option Embedder) (query : String) :
    Except String (List ℚ) :=
  match emb with
  | none => .error "[Retriever] embedding not provided"
  | some e =>
    match e.embedStrings [query] with
    | .error err => .error ("[Retriever] failed to embed query: " ++ err)
    | .ok vectors =>
      match vectors with
      | [v] => .ok (v.map conv)
      | _ => .error "[Retriever] invalid embedding result"

/-- `Retriever.embedSparseQuery`. -/
def embedSparseQuery (emb : Option SparseEmbedderT) (query : String) :
    Except String (List (Int × ℚ)) :=
  match emb with
  | none => .error "[Retriever] sparse embedding not provided"
  | some e =>
    match e.embedStrings [query] with
    | .error err => .error ("[Retriever] failed to embed sparse query: " ++ err)
    | .ok vectors =>
      match vectors with
      | [v] => .ok v
      | _ => .error "[Retriever] invalid sparse embedding result"

/-- The configuration fields the request builders read (the builders receive
the whole `RetrieverConfig` in Go; carrying only these fields breaks the
type-level cycle with the search-mode value). -/
structure ConfCore where
  collection : String
  vectorField : String
  outputFields : List String
  topK : Int
  partitions : List String
  consistencyLevel : Int

/-- `milvusclient.QueryOption` (the fields this component sets). -/
structure QueryOption where
  collection : String
  filter : String
  outputFields : List String
  limit : Int
  partitions : List String
  consistencyLevel : Option Int

/-- `search_mode.Scalar.BuildQueryOption`: treat the query string as a
boolean filter expression, AND-combining it with the call-option filter,
resolve the limit from the call options (defaulted to the config top-K) and
pass collection / output fields / partitions / consistency level through. -/
def scalarBuildQueryOption (conf : ConfCore) (query : String) (opts : List ROption) :
    Except String QueryOption :=
  let io := getImplSpecificOptions {} opts
  let co := getCommonOptions { topK := some conf.topK } opts
  let finalTopK :=
    match co.topK with
    | some k => k
    | none => conf.topK
  let expr := query
  let expr :=
    if io.filter ≠ "" then
      if expr ≠ "" then "(" ++ expr ++ ") and (" ++ io.filter ++ ")"
      else io.filter
    else expr
  .ok { collection := conf.collection
        filter := expr
        outputFields := conf.outputFields
        limit := finalTopK
        partitions := conf.partitions
        consistencyLevel := if 0 < conf.consistencyLevel then some conf.consistencyLevel else none }

/-- An `entity.Vector` attached to an ANN sub-request: dense float32s or a
sparse embedding built from index/value slices. -/
inductive EntityVector where
  | dense (v : List ℚ)
  | sparse (indices : List Nat) (values : List ℚ)

/-- Go's `uint32(k)` on a map key of type `int`. -/
def uint32ofInt (k : Int) : Nat :=
  (k % 4294967296).toNat

/-- Model of `entity.NewSliceSparseEmbedding`: errs when the index and
value slices disagree in length. -/
def newSliceSparseEmbedding (indices : List Nat) (values : List ℚ) :
    Except String EntityVector :=
  if indices.length = values.length then .ok (.sparse indices values)
  else .error "invalid sparse embedding input, size must be the same"

/-- `milvusclient.AnnRequest` (the fields this component sets);
`searchParams` is the request's parameter map. -/
structure AnnRequest where
  field : String
  limit : Int
  vector : EntityVector
  searchParams : List (String × String)
  filter : String
  groupByField : String
  groupSize : Int
  strictGroupSize : Bool

/-- Model of the SDK reranker values (`RRFReranker` / `WeightedReranker`);
the payload is opaque to this component. -/
inductive Reranker where
  | rrf (k : Int)
  | weighted (weights : List ℚ)

/-- `milvusclient.HybridSearchOption` (the fields this component sets). -/
structure HybridSearchOption where
  collection : String
  limit : Int
  annRequests : List AnnRequest
  reranker : Reranker
  outputFields : List String
  partitions : List String

/-- `search_mode.SubRequest`.  `metricType` and `vectorType` are the Go
string enums (`""` defaults to dense / no metric param). -/
structure SubRequest where
  vectorField : String
  metricType : String
  topK : Int
  searchParams : List (String × String)
  vectorType : String

/-- `search_mode.Hybrid`: sub-requests, reranker, and the mode-level top-K
override ("If 0, uses RetrieverConfig.TopK"). -/
structure Hybrid where
  subRequests : List SubRequest
  reranker : Reranker
  topK : Int

/-- The decoration applied to a freshly created ANN sub-request: search
params, metric type, call-option filter and call-option grouping. -/
def decorateAnn (io : ImplOptions) (req : SubRequest) (ann : AnnRequest) : AnnRequest :=
  let ann := req.searchParams.foldl (fun a p => { a with searchParams := mapSet a.searchParams p.1 p.2 }) ann
  let ann :=
    if req.metricType ≠ "" then
      { ann with searchParams := mapSet ann.searchParams "metric_type" req.metricType }
    else ann
  let ann := if io.filter ≠ "" then { ann with filter := io.filter } else ann
  match io.grouping with
  | some g =>
    let ann := { ann with groupByField := g.groupByField, groupSize := g.groupSize }
    if g.strictGroupSize then { ann with strictGroupSize := true } else ann
  | none => ann

/-- The sub-request loop of `Hybrid.BuildHybridSearchOption`: resolve the
vector field and per-request limit, skip sub-requests whose required vector
kind was not supplied, build the sparse embedding (the only fallible step),
decorate, and accumulate in order. -/
def buildAnnRequests (conv : ℚ → ℚ) (conf : ConfCore) (io : ImplOptions)
    (queryVector : List ℚ) (querySparseVector : List (Int × ℚ)) :
    List SubRequest → Except String (List AnnRequest)
  | [] => .ok []
  | req :: rest =>
    let field := if req.vectorField = "" then conf.vectorField else req.vectorField
    let limit := if req.topK ≤ 0 then 10 else req.topK
    if req.vectorType == "sparse" then
      if querySparseVector.isEmpty then
        buildAnnRequests conv conf io queryVector querySparseVector rest
      else
        let indices := querySparseVector.map (fun p => uint32ofInt p.1)
        let values := querySparseVector.map (fun p => conv p.2)
        match newSliceSparseEmbedding indices values with
        | .error e => .error ("failed to create sparse embedding: " ++ e)
        | .ok emb =>
          (buildAnnRequests conv conf io queryVector querySparseVector rest).map
            (fun rest' =>
              decorateAnn io req
                { field := field, limit := limit, vector := emb,
                  searchParams := [], filter := "", groupByField := "",
                  groupSize := 0, strictGroupSize := false } :: rest')
    else
      if queryVector.isEmpty then
        buildAnnRequests conv conf io queryVector querySparseVector rest
      else
        (buildAnnRequests conv conf io queryVector querySparseVector rest).map
          (fun rest' =>
            decorateAnn io req
              { field := field, limit := limit, vector := .dense queryVector,
                searchParams := [], filter := "", groupByField := "",
                groupSize := 0, strictGroupSize := false } :: rest')

/-- `Hybrid.BuildHybridSearchOption`: resolve the overall top-K
(`finalTopK := conf.TopK; if h.TopK > 0 …; if co.TopK != nil …` — note the
base common options carry `&conf.TopK`), build the sub-requests, and
aggregate them under the mode's reranker. -/
def hybridBuildHybridSearchOption (conv : ℚ → ℚ) (h : Hybrid) (conf : ConfCore)
    (queryVector : List ℚ) (querySparseVector : List (Int × ℚ)) (opts : List ROption) :
    Except String HybridSearchOption :=
  let io := getImplSpecificOptions {} opts
  let co := getCommonOptions { topK := some conf.topK } opts
  let finalTopK := conf.topK
  let finalTopK := if 0 < h.topK then h.topK else finalTopK
  let finalTopK :=
    match co.topK with
    | some k => k
    | none => finalTopK
  match buildAnnRequests conv conf io queryVector querySparseVector h.subRequests with
  | .error e => .error e
  | .ok anns =>
    .ok { collection := conf.collection
          limit := finalTopK
          annRequests := anns
          reranker := h.reranker
          outputFields := conf.outputFields
          partitions := conf.partitions }

/-- `milvusclient.SearchOption` (the fields this component sets). -/
structure SearchOption where
  collection : String
  limit : Int
  vectors : List EntityVector
  annsField : String
  outputFields : List String
  partitions : List String
  filter : String
  searchParams : List (String × String)
  grouping : Option Grouping

/-- `Hybrid.BuildSearchOption`: always an error — the generic single-shot
builder cannot serve the Hybrid mode. -/
def hybridBuildSearchOption (_h : Hybrid) (_conf : ConfCore) (_queryVector : List ℚ)
    (_opts : List ROption) : Except String SearchOption :=
  .error "Hybrid search mode requires BuildHybridSearchOption"

/-- Modelled from the spec: `milvusclient.SearchIteratorOption`, the
batch-cursor request (the Iterator mode's builder file is not among the
provided sources; per the spec it carries the batch size and optional extra
search params / filter / grouping). -/
structure SearchIteratorOption where
  collection : String
  batchSize : Int
  searchParams : List (String × String)
  filter : String
  grouping : Option Grouping

/-- `QuerySearchMode.BuildQueryOption`. -/
def QueryBuilder : Type :=
  ConfCore → String → List ROption → Except String QueryOption

/-- `HybridSearchMode.BuildHybridSearchOption`. -/
def HybridBuilder : Type :=
  ConfCore → List ℚ → List (Int × ℚ) → List ROption → Except String HybridSearchOption

/-- `IteratorSearchMode.BuildSearchIteratorOption`. -/
def IterBuilder : Type :=
  ConfCore → List ℚ → List ROption → Except String SearchIteratorOption

/-- `SearchMode.BuildSearchOption`. -/
def SearchBuilder : Type :=
  ConfCore → List ℚ → List ROption → Except String SearchOption

/-- The search-mode value held by the configuration, as the dispatcher's
type switch sees it: a query mode, a hybrid mode, an iterator mode, or a
plain single-shot mode (Approximate / Range), each carrying its builder. -/
inductive SearchModeT where
  | queryMode (build : QueryBuilder)
  | hybridMode (build : HybridBuilder)
  | iteratorMode (build : IterBuilder)
  | standardMode (build : SearchBuilder)

/-- The external engine (milvus client) as the retriever consumes it.  The
search-iterator call yields the trace of successive `Next` outcomes. -/
structure Engine where
  query : QueryOption → Except String ResultSet
  search : SearchOption → Except String (List ResultSet)
  hybridSearch : HybridSearchOption → Except String (List ResultSet)
  searchIterator : SearchIteratorOption → Except String (List (Except String ResultSet))

/-- `RetrieverConfig` after validation (the fields the retrieval pipeline
reads). -/
structure RetrieverConfig where
  core : ConfCore
  scoreThreshold : Option ℚ
  searchMode : SearchModeT
  documentConverter : ResultSet → Except String (List Doc)
  embedding : Option Embedder
  sparseEmbedding : Option SparseEmbedderT

/-- The base common options `Retrieve` passes to `GetCommonOptions`
(`Index`, `TopK`, `ScoreThreshold`, `Embedding` from the config). -/
def baseOptions (cfg : RetrieverConfig) : ROptions :=
  { index := some cfg.core.vectorField
    topK := some cfg.core.topK
    scoreThreshold := cfg.scoreThreshold
    embedding := cfg.embedding }

/-- `Retriever.retrieveQuery`: build the query option, run the engine
query, convert with `queryResultSetToDocuments`. -/
def retrieveQuery (eng : Engine) (build : QueryBuilder) (conf : ConfCore)
    (query : String) (opts : List ROption) : Except String (List Doc) :=
  match build conf query opts with
  | .error e => .error ("[Retriever] failed to build query option: " ++ e)
  | .ok qopt =>
    match eng.query qopt with
    | .error e => .error ("[Retriever] failed to execute query: " ++ e)
    | .ok rs => queryResultSetToDocuments rs

/-- `Retriever.retrieveHybrid`: embed dense iff a dense provider is
configured (using the call-option embedder), embed sparse iff a sparse
provider is configured, build the hybrid option, run the engine, and
convert the first result set (empty results → empty list). -/
def retrieveHybrid (conv : ℚ → ℚ) (eng : Engine) (cfg : RetrieverConfig)
    (build : HybridBuilder) (co : ROptions) (query : String) (opts : List ROption) :
    Except String (List Doc) :=
  let dense : Except String (List ℚ) :=
    match cfg.embedding with
    | some _ => embedQuery conv co.embedding query
    | none => .ok []
  match dense with
  | .error e => .error e
  | .ok queryVector =>
    let sparse : Except String (List (Int × ℚ)) :=
      match cfg.sparseEmbedding with
      | some _ => embedSparseQuery cfg.sparseEmbedding query
      | none => .ok []
    match sparse with
    | .error e => .error e
    | .ok querySparseVector =>
      match build cfg.core queryVector querySparseVector opts with
      | .error e => .error ("[Retriever] failed to build hybrid search option: " ++ e)
      | .ok hopt =>
        match eng.hybridSearch hopt with
        | .error e => .error ("[Retriever] hybrid search failed: " ++ e)
        | .ok results =>
          match results with
          | [] => .ok []
          | r0 :: _ => cfg.documentConverter r0

/-- The fetch loop of `Retriever.retrieveIterator` over the trace of
`Next` outcomes: an exact `"EOF"` error or a zero-row batch ends the loop
with the accumulated documents; any other error fails the call; otherwise
the batch is converted and appended. -/
def iterLoop (convDocs : ResultSet → Except String (List Doc)) :
    List (Except String ResultSet) → List Doc → Except String (List Doc)
  | [], acc => .ok acc
  | .error e :: _, acc =>
    if e = "EOF" then .ok acc
    else .error ("[Retriever] iterator next failed: " ++ e)
  | .ok rs :: rest, acc =>
    if rs.resultCount.toNat = 0 then .ok acc
    else
      match convDocs rs with
      | .error e => .error ("[Retriever] failed to convert batch results: " ++ e)
      | .ok batchDocs => iterLoop convDocs rest (acc ++ batchDocs)

/-- `Retriever.retrieveIterator`: embed dense only, build the iterator
option, open the iterator, and drain it with `iterLoop`. -/
def retrieveIterator (conv : ℚ → ℚ) (eng : Engine) (cfg : RetrieverConfig)
    (build : IterBuilder) (co : ROptions) (query : String) (opts : List ROption) :
    Except String (List Doc) :=
  match embedQuery conv co.embedding query with
  | .error e => .error e
  | .ok queryVector =>
    match build cfg.core queryVector opts with
    | .error e => .error ("[Retriever] failed to build search iterator option: " ++ e)
    | .ok iopt =>
      match eng.searchIterator iopt with
      | .error e => .error ("[Retriever] failed to create search iterator: " ++ e)
      | .ok trace => iterLoop cfg.documentConverter trace []

/-- `Retriever.retrieveStandard`: embed dense, build the one-shot search
option, run the engine, and convert the first result set. -/
def retrieveStandard (conv : ℚ → ℚ) (eng : Engine) (cfg : RetrieverConfig)
    (build : SearchBuilder) (co : ROptions) (query : String) (opts : List ROption) :
    Except String (List Doc) :=
  match embedQuery conv co.embedding query with
  | .error e => .error e
  | .ok queryVector =>
    match build cfg.core queryVector opts with
    | .error e => .error ("[Retriever] failed to build search option: " ++ e)
    | .ok sopt =>
      match eng.search sopt with
      | .error e => .error ("[Retriever] search failed: " ++ e)
      | .ok results =>
        match results with
        | [] => .ok []
        | r0 :: _ => cfg.documentConverter r0

/-- `Retriever.Retrieve`: merge the call options over the config defaults,
dispatch on the search-mode variant, then apply score-threshold filtering
to whatever the chosen branch produced. -/
def Retrieve (conv : ℚ → ℚ) (eng : Engine) (cfg : RetrieverConfig)
    (query : String) (opts : List ROption) : Except String (List Doc) :=
  let co := getCommonOptions (baseOptions cfg) opts
  let branch :=
    match cfg.searchMode with
    | .queryMode build => retrieveQuery eng build cfg.core query opts
    | .hybridMode build => retrieveHybrid conv eng cfg build co query opts
    | .iteratorMode build => retrieveIterator conv eng cfg build co query opts
    | .standardMode build => retrieveStandard conv eng cfg build co query opts
  match branch with
  | .error e => .error e
  | .ok docs => .ok (applyScoreThreshold docs co.scoreThreshold)

/-- The mode-dispatch step of `Retrieve` in isolation (the value of
`docs, err` right before score-threshold filtering). -/
def retrieveDispatch (conv : ℚ → ℚ) (eng : Engine) (cfg : RetrieverConfig)
    (co : ROptions) (query : String) (opts : List ROption) : Except String (List Doc) :=
  match cfg.searchMode with
  | .queryMode build => retrieveQuery eng build cfg.core query opts
  | .hybridMode build => retrieveHybrid conv eng cfg build co query opts
  | .iteratorMode build => retrieveIterator conv eng cfg build co query opts
  | .standardMode build => retrieveStandard conv eng cfg build co query opts

/-- Whether a hybrid sub-request's required vector kind was supplied: a
sparse-typed sub-request needs a non-empty sparse vector, any other
sub-request needs a non-empty dense vector. -/
def subRequestAvailable (queryVector : List ℚ) (querySparseVector : List (Int × ℚ))
    (req : SubRequest) : Bool :=
  if req.vectorType == "sparse" then !querySparseVector.isEmpty
  else !queryVector.isEmpty

/-- The ANN sub-request `buildAnnRequests` produces for one available
sub-request (resolved field, resolved limit, the matching vector kind, then
the common decoration). -/
def buildOneAnn (conv : ℚ → ℚ) (conf : ConfCore) (io : ImplOptions)
    (queryVector : List ℚ) (querySparseVector : List (Int × ℚ)) (req : SubRequest) :
    AnnRequest :=
  let field := if req.vectorField = "" then conf.vectorField else req.vectorField
  let limit := if req.topK ≤ 0 then 10 else req.topK
  let vec : EntityVector :=
    if req.vectorType == "sparse" then
      .sparse (querySparseVector.map (fun p => uint32ofInt p.1))
        (querySparseVector.map (fun p => conv p.2))
    else .dense queryVector
  decorateAnn io req
    { field := field, limit := limit, vector := vec, searchParams := [],
      filter := "", groupByField := "", groupSize := 0, strictGroupSize := false }

section Fixtures

/-- A small validated configuration used for concrete evaluations. -/
def confX : ConfCore :=
  { collection := "c", vectorField := "v", outputFields := [], topK := 10,
    partitions := [], consistencyLevel := 0 }

/-- A hybrid mode with one dense sub-request and a positive mode-level
top-K override (the `Hybrid.TopK` field). -/
def hybridX : Hybrid :=
  { subRequests := [{ vectorField := "", metricType := "", topK := 0,
                      searchParams := [], vectorType := "" }],
    reranker := .rrf 60, topK := 50 }

/-- A dense embedding provider returning one two-element vector. -/
def embX : Embedder :=
  { embedStrings := fun _ => .ok [[1, 2]] }

/-- A one-row result set with a content column but no primary-key column. -/
def rsNoId : ResultSet :=
  { resultCount := 1, scores := [],
    fields := [{ name := "content", values := [.str "x"] }] }

/-- A one-row query result whose stored metadata JSON carries a numeric
`"score"` entry. -/
def rsScoreMeta : ResultSet :=
  { resultCount := 1, scores := [],
    fields := [ { name := "id", values := [.str "1"] },
                { name := "metadata",
                  values := [.bytes (some [("score", .num (mkRat 9 10))])] } ] }

/-- A one-row query result carrying only a primary-key column. -/
def rsIdOnly : ResultSet :=
  { resultCount := 1, scores := [],
    fields := [{ name := "id", values := [.str "1"] }] }

/-- A one-row search batch with the given id and score 1. -/
def rsBatch (i : String) : ResultSet :=
  { resultCount := 1, scores := [1],
    fields := [{ name := "id", values := [.str i] }] }

/-- An engine whose metadata query returns `rsScoreMeta`. -/
def engScoreMeta : Engine :=
  { query := fun _ => .ok rsScoreMeta,
    search := fun _ => .error "unused",
    hybridSearch := fun _ => .error "unused",
    searchIterator := fun _ => .error "unused" }

/-- An engine whose metadata query returns `rsIdOnly`. -/
def engIdOnly : Engine :=
  { query := fun _ => .ok rsIdOnly,
    search := fun _ => .error "unused",
    hybridSearch := fun _ => .error "unused",
    searchIterator := fun _ => .error "unused" }

/-- An engine whose search iterator yields two one-row batches and then the
`"EOF"` sentinel. -/
def engBatches : Engine :=
  { query := fun _ => .error "unused",
    search := fun _ => .error "unused",
    hybridSearch := fun _ => .error "unused",
    searchIterator := fun _ => .ok [.ok (rsBatch "1"), .ok (rsBatch "2"), .error "EOF"] }

/-- A Scalar-mode configuration with score threshold 1/2. -/
def cfgScalarThreshold : RetrieverConfig :=
  { core := confX, scoreThreshold := some (mkRat 1 2),
    searchMode := .queryMode scalarBuildQueryOption,
    documentConverter := defaultDocumentConverterFn,
    embedding := none, sparseEmbedding := none }

/-- An iterator builder that always yields the same batch-cursor option. -/
def iterBuildX : IterBuilder := fun _ _ _ =>
  .ok { collection := "c", batchSize := 100, searchParams := [], filter := "", grouping := none }

/-- An iterator-mode configuration using the default converter. -/
def cfgIterator : RetrieverConfig :=
  { core := confX, scoreThreshold := none,
    searchMode := .iteratorMode iterBuildX,
    documentConverter := defaultDocumentConverterFn,
    embedding := some embX, sparseEmbedding := none }

/-- The documents `defaultDocumentConverterFn` yields for one result set
(used as the per-batch conversion function in iterator statements). -/
def batchDocsOf (rs : ResultSet) : List Doc :=
  (List.range rs.resultCount.toNat).map (defaultConvertRow rs)

/-- A document carrying the given id and score (both as the `"score"`
metadata entry and as the score attribute), as the default converter
produces for a scored row. -/
def exDoc (i : String) (s : ℚ) : Doc :=
  { id := i, content := "", metaData := [("score", .num s)], score := some s }

end Fixtures

section Helpers

/-- The append-accumulating filter loop of `applyScoreThreshold` is
`List.filter`. -/
theorem foldl_append_filter {α : Type} (p : α → Bool) :
    ∀ (l acc : List α),
      l.foldl (fun acc d => if p d then acc ++ [d] else acc) acc = acc ++ l.filter p
  | [], acc => by simp
  | d :: l, acc => by
    cases hp : p d <;>
      simp [List.foldl_cons, hp, foldl_append_filter p l, List.filter_cons]

/-- With a configured threshold, `applyScoreThreshold` is a filter by
`scoreOK`. -/
theorem applyScoreThreshold_some (docs : List Doc) (t : ℚ) :
    applyScoreThreshold docs (some t) = docs.filter (scoreOK t) := by
  simpa using foldl_append_filter (scoreOK t) docs []

/-- `filterMap` produces exactly one output per input on which the function
succeeds. -/
theorem length_filterMap_eq_length_filter {α β : Type} (f : α → Option β) :
    ∀ l : List α, (l.filterMap f).length = (l.filter (fun x => (f x).isSome)).length
  | [] => rfl
  | a :: l => by
    cases h : f a <;>
      simp [List.filterMap_cons, List.filter_cons, h, length_filterMap_eq_length_filter f l]

/-- The sub-request loop succeeds for every input and yields exactly the
available sub-requests, decorated, in order. -/
theorem buildAnnRequests_eq (conv : ℚ → ℚ) (conf : ConfCore) (io : ImplOptions)
    (qv : List ℚ) (sv : List (Int × ℚ)) :
    ∀ reqs : List SubRequest,
      buildAnnRequests conv conf io qv sv reqs =
        .ok ((reqs.filter (subRequestAvailable qv sv)).map (buildOneAnn conv conf io qv sv))
  | [] => rfl
  | req :: rest => by
    have ih := buildAnnRequests_eq conv conf io qv sv rest
    by_cases hs : req.vectorType == "sparse"
    · by_cases he : sv.isEmpty
      · simp [buildAnnRequests, hs, he, ih, List.filter_cons, subRequestAvailable]
      · simp [buildAnnRequests, hs, he, ih, List.filter_cons, subRequestAvailable,
          newSliceSparseEmbedding, buildOneAnn, Except.map]
    · by_cases he : qv.isEmpty
      · simp [buildAnnRequests, hs, he, ih, List.filter_cons, subRequestAvailable]
      · simp [buildAnnRequests, hs, he, ih, List.filter_cons, subRequestAvailable,
          buildOneAnn, Except.map]

/-- Draining a trace of successful non-empty batches followed by a
terminator (the `"EOF"` sentinel or a zero-row batch) accumulates every
batch's documents in arrival order, without error. -/
theorem iterLoop_concat (convDocs : ResultSet → Except String (List Doc))
    (f : ResultSet → List Doc)
    (term : Except String ResultSet)
    (hterm : term = .error "EOF" ∨ ∃ rs0, term = .ok rs0 ∧ rs0.resultCount.toNat = 0) :
    ∀ (batches : List ResultSet) (acc : List Doc),
      (∀ b ∈ batches, b.resultCount.toNat ≠ 0 ∧ convDocs b = .ok (f b)) →
      iterLoop convDocs (batches.map Except.ok ++ [term]) acc = .ok (acc ++ batches.flatMap f)
  | [], acc => by
    intro _
    rcases hterm with h | ⟨rs0, h, hz⟩ <;> subst h <;> simp [iterLoop, *]
  | b :: batches, acc => by
    intro hb
    obtain ⟨hnz, hconv⟩ := hb b (List.mem_cons_self b batches)
    have ih := iterLoop_concat convDocs f term hterm batches (acc ++ f b)
      (fun x hx => hb x (List.mem_cons_of_mem b hx))
    simp only [List.map_cons, List.cons_append, iterLoop, hnz, if_neg hnz, hconv]
    simpa [List.flatMap_cons, List.append_assoc] using ih

/-- `mapGet` succeeds exactly on the keys present in the map. -/
theorem mapGet_isSome_iff {α : Type} (m : List (String × α)) (k : String) :
    (mapGet m k).isSome = true ↔ ∃ p, p ∈ m ∧ (p.1 == k) = true := by
  unfold mapGet
  cases hf : m.find? (fun p => p.1 == k) with
  | none =>
    constructor
    · intro h
      exact absurd h (by simp)
    · rintro ⟨p, hp, hpk⟩
      have h2 := List.find?_eq_none.mp hf p hp
      exact absurd hpk (by simpa using h2)
  | some q =>
    constructor
    · intro _
      exact ⟨q, List.mem_of_find?_eq_some hf, by simpa using List.find?_some hf⟩
    · intro _
      simp

/-- `mapSet` never invents a key: a key found after setting `k'` is `k'`
itself or was already present. -/
theorem mapSet_key_origin {α : Type} (m : List (String × α)) (k' k : String) (v : α)
    (h : (mapGet (mapSet m k' v) k).isSome = true) :
    k' = k ∨ (mapGet m k).isSome = true := by
  rcases (mapGet_isSome_iff _ _).mp h with ⟨q, hq, hqk⟩
  unfold mapSet at hq
  by_cases hf : (m.find? (fun p => p.1 == k')).isSome
  · rw [if_pos hf] at hq
    rcases List.mem_map.mp hq with ⟨p0, hp0, hfp⟩
    by_cases hp : (p0.1 == k') = true
    · rw [if_pos hp] at hfp
      subst hfp
      exact Or.inl (by simpa using hqk)
    · rw [if_neg hp] at hfp
      subst hfp
      exact Or.inr ((mapGet_isSome_iff _ _).mpr ⟨p0, hp0, hqk⟩)
  · rw [if_neg hf] at hq
    rcases List.mem_append.mp hq with hm | hone
    · exact Or.inr ((mapGet_isSome_iff _ _).mpr ⟨q, hm, hqk⟩)
    · have hq1 : q = (k', v) := by simpa using hone
      subst hq1
      exact Or.inl (by simpa using hqk)

/-- A key found in the result of merging a parsed metadata map was either
already present or is a key of the merged map. -/
theorem mergeMeta_lookup_isSome :
    ∀ (m acc : List (String × AnyVal)) (k : String),
      (mapGet (mergeMeta acc m) k).isSome = true →
      (mapGet acc k).isSome = true ∨ ∃ v, (k, v) ∈ m
  | [], _, _ => fun h => Or.inl h
  | p :: m, acc, k => fun h => by
    rcases mergeMeta_lookup_isSome m (mapSet acc p.1 p.2) k h with h1 | ⟨v, hv⟩
    · rcases mapSet_key_origin acc p.1 k p.2 h1 with hk | hacc
      · exact Or.inr ⟨p.2, by rw [← hk]; exact List.mem_cons_self p m⟩
      · exact Or.inl hacc
    · exact Or.inr ⟨v, List.mem_cons_of_mem p hv⟩

/-- A successful `queryRowToDoc` resolves the primary-key field, and the
produced metadata map is exactly the merge of the row's parsed metadata
blob (empty when the blob is absent or unparsable). -/
theorem queryRowToDoc_metaData (rs : ResultSet) (i : Nat) (d : Doc)
    (h : queryRowToDoc rs i = some d) :
    ∃ idVal, getFieldQ rs defaultIDField i = some idVal ∧
      d.metaData = (match getFieldQ rs defaultMetadataField i with
        | some (.bytes (some m)) => mergeMeta [] m
        | _ => []) := by
  cases hid : getFieldQ rs defaultIDField i with
  | none => simp [queryRowToDoc, hid] at h
  | some idVal =>
    refine ⟨idVal, rfl, ?_⟩
    simp only [queryRowToDoc, hid, Option.some.injEq] at h
    subst h
    rfl

end Helpers

/-- C1: evaluation at the failing input.  With config top-K 10, mode-level
`Hybrid.TopK` 50 and no call options, the built hybrid request carries
top-K 10 (the config default), not the mode-level override 50, because the
base common options are seeded with the config top-K and hence the
call-option branch always fires; a genuine call-option override (100) does
land in the request. -/
theorem c1_hybrid_topk_failing_input :
    (hybridBuildHybridSearchOption id hybridX confX [1] [] []).map HybridSearchOption.limit
      = .ok 10 ∧
    (hybridBuildHybridSearchOption id hybridX confX [1] [] [withTopK 100]).map HybridSearchOption.limit
      = .ok 100 ∧
    hybridX.topK = 50 ∧ confX.topK = 10 :=
  ⟨rfl, rfl, rfl, rfl⟩

/-- C2 counterexample: a row without a primary-key column is not skipped by
the default document converter — it still yields one document (with empty
id), refuting "no document is produced for it". -/
theorem c2_counterexample_idless_row_not_skipped :
    defaultDocumentConverterFn rsNoId
      = .ok [{ id := "", content := "x", metaData := [], score := none }] ∧
    (rsNoId.getColumn "id").isNone = true :=
  ⟨rfl, rfl⟩

/-- C2 (amended): the query-path converter `queryResultSetToDocuments`
skips exactly the rows whose primary-key field is absent and never errors
(one document per id-present row); the default document converter instead
never skips — it yields one document per row, id present or not — and
never errors. -/
theorem c2_amended_idless_rows :
    (∀ (rs : ResultSet) (i : Nat),
        getFieldQ rs defaultIDField i = none → queryRowToDoc rs i = none) ∧
    (∀ rs : ResultSet, ∃ docs, queryResultSetToDocuments rs = .ok docs ∧
        docs.length = ((List.range rs.resultCount.toNat).filter
          (fun i => (getFieldQ rs defaultIDField i).isSome)).length) ∧
    (∀ rs : ResultSet, ∃ docs, defaultDocumentConverterFn rs = .ok docs ∧
        docs.length = rs.resultCount.toNat) := by
  refine ⟨?_, ?_, ?_⟩
  · intro rs i h
    simp [queryRowToDoc, h]
  · intro rs
    refine ⟨_, rfl, ?_⟩
    rw [length_filterMap_eq_length_filter]
    congr 1
    apply List.filter_congr
    intro i _
    cases h : getFieldQ rs defaultIDField i <;> simp [queryRowToDoc, h]
  · intro rs
    exact ⟨_, rfl, by simp [defaultDocumentConverterFn]⟩

/-- C2 witness: on the concrete id-less row, the query-path converter
produces no document for it. -/
theorem c2_amended_idless_rows_witness : queryRowToDoc rsNoId 0 = none :=
  c2_amended_idless_rows.1 rsNoId 0 rfl

/-- C3: score-threshold filtering — with no threshold the list is
unchanged; with threshold `t` exactly the documents whose `"score"`
metadata entry is a number ≥ `t` survive, in original relative order
(`List.filter`); `Retrieve` applies the filtering exactly once, after the
mode dispatch, to whatever the chosen mode produced; and threshold 3/5 on
documents scored 9/10, 7/10, 1/2, 3/10 keeps exactly the first two. -/
theorem c3_score_threshold_filtering :
    (∀ docs : List Doc, applyScoreThreshold docs none = docs) ∧
    (∀ (docs : List Doc) (t : ℚ),
        applyScoreThreshold docs (some t) = docs.filter (scoreOK t)) ∧
    (∀ (conv : ℚ → ℚ) (eng : Engine) (cfg : RetrieverConfig) (query : String)
        (opts : List ROption),
        Retrieve conv eng cfg query opts =
          (retrieveDispatch conv eng cfg (getCommonOptions (baseOptions cfg) opts) query opts).map
            (fun docs => applyScoreThreshold docs
              (getCommonOptions (baseOptions cfg) opts).scoreThreshold)) ∧
    (applyScoreThreshold
        [exDoc "1" (mkRat 9 10), exDoc "2" (mkRat 7 10),
         exDoc "3" (mkRat 1 2), exDoc "4" (mkRat 3 10)] (some (mkRat 3 5))
      = [exDoc "1" (mkRat 9 10), exDoc "2" (mkRat 7 10)]) := by
  refine ⟨fun docs => rfl, applyScoreThreshold_some, ?_, rfl⟩
  intro conv eng cfg query opts
  cases hm : cfg.searchMode with
  | queryMode build =>
    simp only [Retrieve, retrieveDispatch, hm]
    cases retrieveQuery eng build cfg.core query opts <;> simp [Except.map]
  | hybridMode build =>
    simp only [Retrieve, retrieveDispatch, hm]
    cases retrieveHybrid conv eng cfg build (getCommonOptions (baseOptions cfg) opts) query opts <;>
      simp [Except.map]
  | iteratorMode build =>
    simp only [Retrieve, retrieveDispatch, hm]
    cases retrieveIterator conv eng cfg build (getCommonOptions (baseOptions cfg) opts) query opts <;>
      simp [Except.map]
  | standardMode build =>
    simp only [Retrieve, retrieveDispatch, hm]
    cases retrieveStandard conv eng cfg build (getCommonOptions (baseOptions cfg) opts) query opts <;>
      simp [Except.map]

/-- C4: the Scalar filter expression — empty query yields exactly the
call-option filter, empty call-option filter yields exactly the query, and
two non-empty sides are each parenthesized and joined with `and`; the
builder itself never errors. -/
theorem c4_scalar_filter_combination (conf : ConfCore) (q : String) (opts : List ROption) :
    ∃ qo, scalarBuildQueryOption conf q opts = .ok qo ∧
      (q = "" → qo.filter = (getImplSpecificOptions {} opts).filter) ∧
      ((getImplSpecificOptions {} opts).filter = "" → qo.filter = q) ∧
      (q ≠ "" → (getImplSpecificOptions {} opts).filter ≠ "" →
        qo.filter = "(" ++ q ++ ") and (" ++ (getImplSpecificOptions {} opts).filter ++ ")") := by
  refine ⟨_, rfl, ?_, ?_, ?_⟩
  · intro hq
    by_cases hio : (getImplSpecificOptions {} opts).filter = "" <;>
      simp [scalarBuildQueryOption, hq, hio]
  · intro hio
    simp [scalarBuildQueryOption, hio]
  · intro hq hio
    simp [scalarBuildQueryOption, hq, hio]

/-- C4 witness: query `"a"` with call-option filter `"b"` builds the filter
`"(a) and (b)"`. -/
theorem c4_scalar_filter_combination_witness :
    (scalarBuildQueryOption confX "a" [withFilter "b"]).map QueryOption.filter
      = .ok "(a) and (b)" := by
  obtain ⟨qo, hok, _, _, hboth⟩ := c4_scalar_filter_combination confX "a" [withFilter "b"]
  rw [hok]
  have h3 := hboth (by decide) (by decide)
  simp only [Except.map, h3]
  rfl

/-- C5: the hybrid builder always succeeds and its aggregated request
contains exactly the sub-requests whose required vector kind was supplied
(sparse-typed ones are dropped when the sparse vector is empty, dense-typed
ones when the dense vector is empty), in order — omission is silent, never
an error. -/
theorem c5_hybrid_skips_unavailable (conv : ℚ → ℚ) (h : Hybrid) (conf : ConfCore)
    (qv : List ℚ) (sv : List (Int × ℚ)) (opts : List ROption) :
    ∃ r, hybridBuildHybridSearchOption conv h conf qv sv opts = .ok r ∧
      r.annRequests =
        (h.subRequests.filter (subRequestAvailable qv sv)).map
          (buildOneAnn conv conf (getImplSpecificOptions {} opts) qv sv) := by
  simp only [hybridBuildHybridSearchOption, buildAnnRequests_eq]
  exact ⟨_, rfl, rfl⟩

/-- C6: `embedQuery` succeeds exactly when an embedder is present, the
provider call succeeds, and it returns exactly one vector for the single
input; the successful result is the element-wise conversion of that one
vector (the float64→float32 narrowing applied independently to each
element). -/
theorem c6_embed_query_contract (conv : ℚ → ℚ) (emb : Option Embedder) (q : String) :
    ((∃ out, embedQuery conv emb q = .ok out) ↔
       ∃ e v, emb = some e ∧ e.embedStrings [q] = .ok [v]) ∧
    (∀ (e : Embedder) (v : List ℚ), emb = some e → e.embedStrings [q] = .ok [v] →
       embedQuery conv emb q = .ok (v.map conv)) := by
  constructor
  · constructor
    · rintro ⟨out, hout⟩
      cases emb with
      | none => simp [embedQuery] at hout
      | some e =>
        cases hr : e.embedStrings [q] with
        | error err => simp [embedQuery, hr] at hout
        | ok vectors =>
          rcases vectors with _ | ⟨v, _ | ⟨w, rest⟩⟩
          · simp [embedQuery, hr] at hout
          · exact ⟨e, v, rfl, hr⟩
          · simp [embedQuery, hr] at hout
    · rintro ⟨e, v, he, hv⟩
      subst he
      exact ⟨v.map conv, by simp [embedQuery, hv]⟩
  · intro e v he hv
    subst he
    simp [embedQuery, hv]

/-- C6 witness: a provider returning the single vector `[1, 2]` embeds to
`[1, 2]` under the identity conversion. -/
theorem c6_embed_query_contract_witness :
    embedQuery id (some embX) "q" = .ok [1, 2] :=
  (c6_embed_query_contract id (some embX) "q").2 embX [1, 2] rfl rfl

/-- C7: in Iterator mode, when the iterator trace is a run of successful
non-empty batches followed by a terminator (the exact `"EOF"` sentinel,
not treated as an error, or a zero-row batch), retrieval returns the
concatenation of the batches' converted documents in arrival order. -/
theorem c7_iterator_accumulation (conv : ℚ → ℚ) (eng : Engine) (cfg : RetrieverConfig)
    (build : IterBuilder) (co : ROptions) (query : String) (opts : List ROption)
    (qv : List ℚ) (iopt : SearchIteratorOption) (batches : List ResultSet)
    (f : ResultSet → List Doc) (term : Except String ResultSet)
    (hemb : embedQuery conv co.embedding query = .ok qv)
    (hbuild : build cfg.core qv opts = .ok iopt)
    (heng : eng.searchIterator iopt = .ok (batches.map Except.ok ++ [term]))
    (hterm : term = .error "EOF" ∨ ∃ rs0, term = .ok rs0 ∧ rs0.resultCount.toNat = 0)
    (hbatch : ∀ b ∈ batches, b.resultCount.toNat ≠ 0 ∧ cfg.documentConverter b = .ok (f b)) :
    retrieveIterator conv eng cfg build co query opts = .ok (batches.flatMap f) := by
  simp only [retrieveIterator, hemb, hbuild, heng]
  simpa using iterLoop_concat cfg.documentConverter f term hterm batches [] hbatch

/-- C7 witness: batches with ids "1" then "2" followed by `"EOF"` yield the
documents in arrival order `[1, 2]`. -/
theorem c7_iterator_accumulation_witness :
    retrieveIterator id engBatches cfgIterator iterBuildX (baseOptions cfgIterator) "q" []
      = .ok [exDoc "1" 1, exDoc "2" 1] := by
  have hb : ∀ b ∈ [rsBatch "1", rsBatch "2"],
      b.resultCount.toNat ≠ 0 ∧ cfgIterator.documentConverter b = .ok (batchDocsOf b) := by
    intro b hmem
    simp only [List.mem_cons, List.not_mem_nil, or_false] at hmem
    rcases hmem with rfl | rfl
    · exact ⟨by decide, rfl⟩
    · exact ⟨by decide, rfl⟩
  exact c7_iterator_accumulation id engBatches cfgIterator iterBuildX
    (baseOptions cfgIterator) "q" [] [1, 2]
    { collection := "c", batchSize := 100, searchParams := [], filter := "", grouping := none }
    [rsBatch "1", rsBatch "2"] batchDocsOf (.error "EOF") rfl rfl rfl (Or.inl rfl) hb

/-- C8: calling the generic single-shot builder on the Hybrid mode is
always an error (a returned value, not a panic), directing the caller to
the specialized multi-vector builder. -/
theorem c8_generic_builder_on_hybrid_errs (h : Hybrid) (conf : ConfCore)
    (qv : List ℚ) (opts : List ROption) :
    hybridBuildSearchOption h conf qv opts
      = .error "Hybrid search mode requires BuildHybridSearchOption" :=
  rfl

/-- C9: score-threshold filtering is idempotent — re-filtering an
already-filtered list with the same threshold changes nothing. -/
theorem c9_threshold_idempotent (docs : List Doc) (t : Option ℚ) :
    applyScoreThreshold (applyScoreThreshold docs t) t = applyScoreThreshold docs t := by
  cases t with
  | none => rfl
  | some t => simp [applyScoreThreshold_some, List.filter_filter]

/-- C10 counterexample: a Scalar-mode retrieval with threshold 1/2 over a
row whose stored metadata JSON carries `"score": 9/10` returns that
document — the scalar path CAN carry a `"score"` metadata entry (via the
metadata blob) and the result is not empty. -/
theorem c10_counterexample_scalar_score_passthrough :
    Retrieve id engScoreMeta cfgScalarThreshold "" []
      = .ok [{ id := "1", content := "",
               metaData := [("score", .num (mkRat 9 10))], score := none }] ∧
    ({ id := "1", content := "", metaData := [("score", .num (mkRat 9 10))],
       score := none } : Doc).metaLookup "score" = some (.num (mkRat 9 10)) ∧
    Retrieve id engScoreMeta cfgScalarThreshold "" [] ≠ .ok [] := by
  refine ⟨rfl, rfl, ?_⟩
  intro hcontra
  rw [show Retrieve id engScoreMeta cfgScalarThreshold "" []
      = .ok [{ id := "1", content := "",
               metaData := [("score", .num (mkRat 9 10))], score := none }] from rfl] at hcontra
  simp at hcontra

/-- C10 (amended): the threshold decision reads only the `"score"`
metadata entry (it ignores the document score attribute); the scalar
conversion never itself attaches a score — a converted document carries a
`"score"` entry only when the row's stored metadata blob supplies that
key; and whenever no converted row carries a numeric `"score"` metadata
entry (non-numeric entries fail the float64 assertion just like missing
ones), a Scalar-mode retrieval with a configured threshold returns the
empty list. -/
theorem c10_amended_scalar_threshold :
    (∀ (t : ℚ) (d : Doc) (s : Option ℚ), scoreOK t { d with score := s } = scoreOK t d) ∧
    (∀ (rs : ResultSet) (i : Nat) (d : Doc),
        queryRowToDoc rs i = some d →
        (d.metaLookup "score").isSome = true →
        ∃ m v, getFieldQ rs defaultMetadataField i = some (.bytes (some m)) ∧
          ("score", v) ∈ m) ∧
    (∀ (conv : ℚ → ℚ) (eng : Engine) (cfg : RetrieverConfig) (build : QueryBuilder)
        (query : String) (opts : List ROption) (t : ℚ) (qopt : QueryOption) (rs : ResultSet),
        cfg.searchMode = .queryMode build →
        (getCommonOptions (baseOptions cfg) opts).scoreThreshold = some t →
        build cfg.core query opts = .ok qopt →
        eng.query qopt = .ok rs →
        (((List.range rs.resultCount.toNat).filterMap (queryRowToDoc rs)).all
          (fun d => !hasNumericScore d)) = true →
        Retrieve conv eng cfg query opts = .ok []) := by
  refine ⟨?_, ?_, ?_⟩
  · intro t d s
    rfl
  · intro rs i d hd hs
    obtain ⟨idVal, _, hmeta⟩ := queryRowToDoc_metaData rs i d hd
    simp only [Doc.metaLookup] at hs
    rw [hmeta] at hs
    cases hmf : getFieldQ rs defaultMetadataField i with
    | none => rw [hmf] at hs; simp [mapGet] at hs
    | some val =>
      rw [hmf] at hs
      cases val with
      | bytes parsed =>
        cases parsed with
        | none => simp [mapGet] at hs
        | some m =>
          rcases mergeMeta_lookup_isSome m [] "score" hs with h0 | ⟨v, hv⟩
          · simp [mapGet] at h0
          · exact ⟨m, v, rfl, hv⟩
      | str s => simp [mapGet] at hs
      | num x => simp [mapGet] at hs
      | intV n => simp [mapGet] at hs
      | boolV b => simp [mapGet] at hs
      | null => simp [mapGet] at hs
  · intro conv eng cfg build query opts t qopt rs hm hthr hbuild hq hall
    have hfalse : ∀ d ∈ (List.range rs.resultCount.toNat).filterMap (queryRowToDoc rs),
        ¬(scoreOK t d = true) := by
      intro d hd
      have hnum := List.all_eq_true.mp hall d hd
      have hfls : hasNumericScore d = false := by simpa using hnum
      cases hl : d.metaLookup "score" with
      | none => simp [scoreOK, hl]
      | some v =>
        cases v with
        | num x => simp [hasNumericScore, hl] at hfls
        | str s => simp [scoreOK, hl]
        | intV n => simp [scoreOK, hl]
        | boolV b => simp [scoreOK, hl]
        | bytes p => simp [scoreOK, hl]
        | null => simp [scoreOK, hl]
    simp only [Retrieve, hm, retrieveQuery, hbuild, hq, queryResultSetToDocuments, hthr,
      applyScoreThreshold_some]
    exact congrArg Except.ok (List.filter_eq_nil_iff.mpr hfalse)

/-- C10 witness: a scalar retrieval with threshold 1/2 over a row whose
metadata carries no score returns the empty list. -/
theorem c10_amended_scalar_threshold_witness :
    Retrieve id engIdOnly cfgScalarThreshold "" [] = .ok [] :=
  c10_amended_scalar_threshold.2.2 id engIdOnly cfgScalarThreshold scalarBuildQueryOption "" []
    (mkRat 1 2)
    { collection := "c", filter := "", outputFields := [], limit := 10,
      partitions := [], consistencyLevel := none }
    rsIdOnly rfl rfl rfl rfl rfl

end Milvus2
